import Mathlib

/-!
Verification development for the CryptoLicenseSystem repository.

The repository binds a software license to a machine: a client derives a
hardware fingerprint (SHA-256 of `mac + "|" + disk + "|" + cpu`, lowercase
hex), an offline issuer signs a fingerprint with an RSA private key and
writes a JSON license record, and the client validates a license record by
comparing fingerprints and verifying the signature against a public key.

Shallow embedding conventions:
  * C++ strings become Lean `String`; the bytes a C++ `std::string` holds
    become `List Nat` (each entry a byte value), produced by `stringBytes`.
  * The OpenSSL EVP signing/verification primitives and the PEM key loads
    are external library calls; they are modelled by the oracle structures
    `SignEnv` and `VerifyEnv`, whose fields stand for the outcomes of
    `PEM_read_PrivateKey` / `PEM_read_PUBKEY`, `EVP_MD_CTX` setup, and
    `EVP_SignFinal` / `EVP_VerifyFinal`.
  * `QCryptographicHash::hash(_, Sha256)` is modelled by an executable
    FIPS 180-4 SHA-256 over byte lists (`sha256`).
  * OpenSSL's `BIO_f_base64` reader with `BIO_FLAGS_BASE64_NO_NL`
    (hardwarelock.cpp line 260) is modelled by `b64DecodeNoNL`, following
    the single-line decode path built on `EVP_DecodeBlock`.
  * Qt JSON access (`QJsonObject`, `QJsonValue::toString`) is modelled by
    association lists of `JVal` and `getString`.
-/

set_option maxRecDepth 8000

/-- Reduce a machine word to 32 bits, as the C++ `unsigned int` arithmetic
used by the SHA-256 model does implicitly. -/
def w32 (n : Nat) : Nat := n % 4294967296

/-- Rotate a 32-bit word right by `n` bits. -/
def rotr (n x : Nat) : Nat := w32 (x / 2 ^ n + x % 2 ^ n * 2 ^ (32 - n))

/-- Logical right shift of a 32-bit word. -/
def shr (n x : Nat) : Nat := x / 2 ^ n

/-- SHA-256 round constants (FIPS 180-4), written in decimal. -/
def sha256K : List Nat :=
  [1116352408, 1899447441, 3049323471, 3921009573, 961987163,
   1508970993, 2453635748, 2870763221, 3624381080, 310598401,
   607225278, 1426881987, 1925078388, 2162078206, 2614888103,
   3248222580, 3835390401, 4022224774, 264347078, 604807628,
   770255983, 1249150122, 1555081692, 1996064986, 2554220882,
   2821834349, 2952996808, 3210313671, 3336571891, 3584528711,
   113926993, 338241895, 666307205, 773529912, 1294757372,
   1396182291, 1695183700, 1986661051, 2177026350, 2456956037,
   2730485921, 2820302411, 3259730800, 3345764771, 3516065817,
   3600352804, 4094571909, 275423344, 430227734, 506948616,
   659060556, 883997877, 958139571, 1322822218, 1537002063,
   1747873779, 1955562222, 2024104815, 2227730452, 2361852424,
   2428436474, 2756734187, 3204031479, 3329325298]

/-- The eight 32-bit words of a SHA-256 chaining state. -/
structure Hash8 where
  a : Nat
  b : Nat
  c : Nat
  d : Nat
  e : Nat
  f : Nat
  g : Nat
  h : Nat
deriving Repr, DecidableEq

/-- SHA-256 initial hash value (FIPS 180-4), written in decimal. -/
def sha256H0 : Hash8 :=
  ⟨1779033703, 3144134277, 1013904242, 2773480762,
   1359893119, 2600822924, 528734635, 1541459225⟩

/-- SHA-256 `Ch` function; inputs are 32-bit words. -/
def shaCh (x y z : Nat) : Nat := (x &&& y) ^^^ ((x ^^^ 4294967295) &&& z)

/-- SHA-256 `Maj` function. -/
def shaMaj (x y z : Nat) : Nat := (x &&& y) ^^^ (x &&& z) ^^^ (y &&& z)

/-- SHA-256 big sigma 0. -/
def bigSigma0 (x : Nat) : Nat := rotr 2 x ^^^ rotr 13 x ^^^ rotr 22 x

/-- SHA-256 big sigma 1. -/
def bigSigma1 (x : Nat) : Nat := rotr 6 x ^^^ rotr 11 x ^^^ rotr 25 x

/-- SHA-256 small sigma 0. -/
def smallSigma0 (x : Nat) : Nat := rotr 7 x ^^^ rotr 18 x ^^^ shr 3 x

/-- SHA-256 small sigma 1. -/
def smallSigma1 (x : Nat) : Nat := rotr 17 x ^^^ rotr 19 x ^^^ shr 10 x

/-- Group a byte list into big-endian 32-bit words (four bytes per word);
a trailing group shorter than four bytes is dropped (never reached on the
64-byte chunks SHA-256 feeds it). -/
def bytesToWords : List Nat → List Nat
  | b0 :: b1 :: b2 :: b3 :: rest =>
      (b0 * 16777216 + b1 * 65536 + b2 * 256 + b3) :: bytesToWords rest
  | _ => []

/-- Extend the 16 message words of a chunk to the 64-entry SHA-256 message
schedule. -/
def scheduleW (chunk : List Nat) : Array Nat :=
  (List.range 48).foldl
    (fun ws i =>
      ws.push (w32 (smallSigma1 ws[i + 14]! + ws[i + 9]! +
                    smallSigma0 ws[i + 1]! + ws[i]!)))
    (bytesToWords chunk).toArray

/-- One SHA-256 round; `kw` pairs the round constant with the schedule word. -/
def roundStep (s : Hash8) (kw : Nat × Nat) : Hash8 :=
  let t1 := w32 (s.h + bigSigma1 s.e + shaCh s.e s.f s.g + kw.1 + kw.2)
  let t2 := w32 (bigSigma0 s.a + shaMaj s.a s.b s.c)
  ⟨w32 (t1 + t2), s.a, s.b, s.c, w32 (s.d + t1), s.e, s.f, s.g⟩

/-- Compress one 64-byte chunk into the chaining state. -/
def compressChunk (s : Hash8) (chunk : List Nat) : Hash8 :=
  let t := (sha256K.zip (scheduleW chunk).toList).foldl roundStep s
  ⟨w32 (s.a + t.a), w32 (s.b + t.b), w32 (s.c + t.c), w32 (s.d + t.d),
   w32 (s.e + t.e), w32 (s.f + t.f), w32 (s.g + t.g), w32 (s.h + t.h)⟩

/-- Big-endian 8-byte rendering of a 64-bit message length in bits. -/
def lenBytes64 (n : Nat) : List Nat :=
  [n / 2 ^ 56 % 256, n / 2 ^ 48 % 256, n / 2 ^ 40 % 256, n / 2 ^ 32 % 256,
   n / 2 ^ 24 % 256, n / 2 ^ 16 % 256, n / 2 ^ 8 % 256, n % 256]

/-- SHA-256 padding: append `0x80`, zero bytes, and the bit length, so the
total length is a multiple of 64 bytes. -/
def sha256Pad (bs : List Nat) : List Nat :=
  let L := bs.length
  let k := (64 - (L + 9) % 64) % 64
  bs ++ 128 :: List.replicate k 0 ++ lenBytes64 (8 * L % 18446744073709551616)

/-- Split a byte list into successive 64-byte chunks. -/
def chunks64 : List Nat → List (List Nat)
  | [] => []
  | b :: rest => ((b :: rest).take 64) :: chunks64 ((b :: rest).drop 64)
termination_by bs => bs.length
decreasing_by
  simp [List.drop]
  omega

/-- Render one 32-bit word as four big-endian bytes. -/
def wordBytes (w : Nat) : List Nat :=
  [w / 16777216 % 256, w / 65536 % 256, w / 256 % 256, w % 256]

/-- The 32 digest bytes of a final chaining state. -/
def digestBytes (s : Hash8) : List Nat :=
  wordBytes s.a ++ wordBytes s.b ++ wordBytes s.c ++ wordBytes s.d ++
  wordBytes s.e ++ wordBytes s.f ++ wordBytes s.g ++ wordBytes s.h

/-- SHA-256 of a byte list (model of `QCryptographicHash::hash(_, Sha256)`). -/
def sha256 (bs : List Nat) : List Nat :=
  digestBytes ((chunks64 (sha256Pad bs)).foldl compressChunk sha256H0)

/-- Lowercase hexadecimal digit for a value below 16 (what
`std::hex` prints for one nibble). -/
def hexDigit (n : Nat) : Char :=
  Char.ofNat (if n < 10 then 48 + n else 87 + n)

/-- Two lowercase hex digits of one byte: the C++
`oss << std::hex << std::setw(2) << std::setfill('0') << (int)byte`
idiom used both by `HardwareLock::getHardwareFingerprint` (lines 207-209)
and by `LicenseGenerator::generateLicense` (lines 70-73). -/
def byteToHex (b : Nat) : List Char := [hexDigit (b / 16 % 16), hexDigit (b % 16)]

/-- Render a byte list as a lowercase hexadecimal string, two digits per
byte, no separators. -/
def bytesToLowerHex (bs : List Nat) : String := ⟨(bs.map byteToHex).flatten⟩

/-- Whether a character is a lowercase hex digit (`[0-9a-f]`). -/
def isLowerHexDigit (c : Char) : Bool :=
  (48 ≤ c.toNat && c.toNat ≤ 57) || (97 ≤ c.toNat && c.toNat ≤ 102)

/-- Character test of `HardwareLock::verifyLicense` lines 231-236:
`[0-9a-fA-F]`. -/
def isHexChar (c : Char) : Bool :=
  (48 ≤ c.toNat && c.toNat ≤ 57) || (97 ≤ c.toNat && c.toNat ≤ 102) ||
  (65 ≤ c.toNat && c.toNat ≤ 70)

/-- The `isHex` flag of `HardwareLock::verifyLicense`: every character of
the signature string is in `[0-9a-fA-F]` (vacuously true when empty). -/
def sigIsHex (s : String) : Bool := s.data.all isHexChar

/-- Value of one hex digit as `strtol(_, nullptr, 16)` reads it; other
characters give 0 (never reached on the guarded hex path). -/
def hexVal (c : Char) : Nat :=
  if 48 ≤ c.toNat ∧ c.toNat ≤ 57 then c.toNat - 48
  else if 97 ≤ c.toNat ∧ c.toNat ≤ 102 then c.toNat - 87
  else if 65 ≤ c.toNat ∧ c.toNat ≤ 70 then c.toNat - 55
  else 0

/-- The hex decode loop of `HardwareLock::verifyLicense` lines 242-246:
each two-character slice becomes one byte via `strtol(_, _, 16)`; a lone
trailing character would become its own value (unreachable at length 512). -/
def hexPairsDecode : List Char → List Nat
  | c1 :: c2 :: rest => (16 * hexVal c1 + hexVal c2) :: hexPairsDecode rest
  | [c] => [hexVal c]
  | [] => []

/-- UTF-8 encoding of one character, as the bytes a C++ `std::string`
carries for it. -/
def charUtf8 (c : Char) : List Nat :=
  let n := c.toNat
  if n < 128 then [n]
  else if n < 2048 then [192 + n / 64, 128 + n % 64]
  else if n < 65536 then [224 + n / 4096, 128 + n / 64 % 64, 128 + n % 64]
  else [240 + n / 262144, 128 + n / 4096 % 64, 128 + n / 64 % 64, 128 + n % 64]

/-- The byte sequence of a string (`s.c_str()` with `s.length()`), UTF-8. -/
def stringBytes (s : String) : List Nat := (s.data.map charUtf8).flatten

/-- Base64 alphabet value as OpenSSL's `conv_ascii2bin` table reads it:
`A`-`Z`, `a`-`z`, `0`-`9`, `+`, `/`; `=` decodes as 0 (callers adjust for
padding afterwards); every other character is an error. -/
def b64Val (c : Char) : Option Nat :=
  let n := c.toNat
  if 65 ≤ n ∧ n ≤ 90 then some (n - 65)
  else if 97 ≤ n ∧ n ≤ 122 then some (n - 71)
  else if 48 ≤ n ∧ n ≤ 57 then some (n + 4)
  else if n = 43 then some 62
  else if n = 47 then some 63
  else if n = 61 then some 0
  else none

/-- Leading characters `EVP_DecodeBlock` skips (its whitespace class). -/
def isB64Ws (c : Char) : Bool := c.toNat = 32 || c.toNat = 9

/-- Trailing characters `EVP_DecodeBlock` strips before length-checking:
whitespace, line breaks and `-`. -/
def isB64Strip (c : Char) : Bool :=
  isB64Ws c || c.toNat = 10 || c.toNat = 13 || c.toNat = 45

/-- Strip strippable characters off the end of a reversed character list
while more than three characters would remain (the `while (n > 3 && ...)`
loop of `EVP_DecodeBlock`). -/
def trimTrailGo : List Char → List Char
  | [] => []
  | c :: rest => if isB64Strip c ∧ 3 ≤ rest.length then trimTrailGo rest else c :: rest

/-- Trailing-strip step of `EVP_DecodeBlock`. -/
def trimTrail (cs : List Char) : List Char := (trimTrailGo cs.reverse).reverse

/-- Decode four-character Base64 groups to three bytes each; any character
outside the table, or a length not a multiple of four, is an error. -/
def decodeQuads : List Char → Option (List Nat)
  | [] => some []
  | a :: b :: c :: d :: rest => do
      let va ← b64Val a
      let vb ← b64Val b
      let vc ← b64Val c
      let vd ← b64Val d
      let tail ← decodeQuads rest
      pure ((va * 4 + vb / 16) :: (vb % 16 * 16 + vc / 4) :: (vc % 4 * 64 + vd) :: tail)
  | _ => none

/-- Model of OpenSSL's `EVP_DecodeBlock`: skip leading whitespace, strip
trailing non-alphabet characters, then decode whole four-character groups;
`none` is the C function's -1. -/
def evpDecodeBlock (cs : List Char) : Option (List Nat) :=
  decodeQuads (trimTrail (cs.dropWhile isB64Ws))

/-- Model of one `BIO_read` through `BIO_f_base64` with
`BIO_FLAGS_BASE64_NO_NL` set (`HardwareLock::verifyLicense` lines 247-270):
the largest four-aligned chunk of the input is decoded by
`EVP_DecodeBlock`; the byte count is then reduced for `=` padding seen in
the raw chunk's last two positions; a non-positive byte count makes the
read fail (`actualLen <= 0`), which the caller turns into `false`. -/
def b64DecodeNoNL (s : String) : Option (List Nat) :=
  let cs := s.data
  let jj := cs.length / 4 * 4
  let block := cs.take jj
  match evpDecodeBlock block with
  | none => none
  | some bytes =>
      let pad :=
        if 2 < jj ∧ block.getD (jj - 1) ' ' = '=' then
          if block.getD (jj - 2) ' ' = '=' then 2 else 1
        else 0
      let z := bytes.length - pad
      if 0 < z then some (bytes.take z) else none

/-- The fingerprint computation of `HardwareLock::getHardwareFingerprint`
(lines 195-212), parameterized over the three identifier strings the
platform layer (`getMacAddress`, `getDiskSerialNumber`, `getCpuId`)
returns: concatenate `mac + "|" + disk + "|" + cpu`, hash the bytes with
SHA-256, render the digest as lowercase hex. -/
def getHardwareFingerprint (mac disk cpu : String) : String :=
  let combined := mac ++ "|" ++ disk ++ "|" ++ cpu
  bytesToLowerHex (sha256 (stringBytes combined))

/-- Oracle for the external calls `HardwareLock::verifyLicense` makes:
`bioOk` is whether the two `BIO_new` allocations succeed (lines 251-258),
`pubKeyLoaded` the result of `fopen` + `PEM_read_PUBKEY` on the public key
path (lines 277-282; `none` covers both a missing file and an unparsable
key), `ctxOk` whether `EVP_MD_CTX_new`, `EVP_VerifyInit_ex` and
`EVP_VerifyUpdate` all succeed (lines 284-295), and `verifyFinal` the
`EVP_VerifyFinal` return code for a key handle, message bytes and
signature bytes (line 297; 1 means a confirmed signature). -/
structure VerifyEnv where
  bioOk : Bool
  pubKeyLoaded : Option Nat
  ctxOk : Bool
  verifyFinal : Nat → List Nat → List Nat → Int

/-- The signature bytes `HardwareLock::verifyLicense` obtains from the
encoded signature string: the hex path when every character is hex and the
length is exactly 512, otherwise the Base64 path (whose BIO allocations
must succeed). -/
def verifyDecode (env : VerifyEnv) (s : String) : Option (List Nat) :=
  if sigIsHex s = true ∧ s.length = 512 then some (hexPairsDecode s.data)
  else if env.bioOk then b64DecodeNoNL s else none

/-- The signature codec by itself (the decode logic of
`HardwareLock::verifyLicense` lines 230-275, with the BIO allocations
assumed to succeed): hex path for 512-character all-hex strings, Base64
path for everything else. -/
def decodeSignature (s : String) : Option (List Nat) :=
  if sigIsHex s = true ∧ s.length = 512 then some (hexPairsDecode s.data)
  else b64DecodeNoNL s

/-- `HardwareLock::verifyLicense` (lines 224-302): decode the signature,
load the public key, set up the digest context, and return whether
`EVP_VerifyFinal` over the bytes of `hash` confirms the signature; every
failure on the way returns `false`. -/
def verifyLicense (env : VerifyEnv) (hash sig : String) : Bool :=
  match verifyDecode env sig with
  | none => false
  | some sigBytes =>
      match env.pubKeyLoaded with
      | none => false
      | some k =>
          if env.ctxOk = true then
            if env.verifyFinal k (stringBytes hash) sigBytes = 1 then true else false
          else false

/-- A JSON value as the license flows observe it: a string, or anything
else (whose `QJsonValue::toString()` is the empty string). -/
inductive JVal where
  | str : String → JVal
  | nonString : JVal
deriving Repr, DecidableEq

/-- A JSON object with string keys (keys unique in well-formed licenses). -/
abbrev JObj := List (String × JVal)

/-- `obj[key].toString().toStdString()`: the stored string, or `""` when the
key is absent or holds a non-string value. -/
def getString (obj : JObj) (key : String) : String :=
  match obj.lookup key with
  | some (JVal.str s) => s
  | _ => ""

/-- The fingerprint `main` reads from a license object (lines 422-428):
the `hardwareFingerprint` field, falling back to the legacy `hardwareId`
field when the former is absent or empty. -/
def effectiveFingerprint (obj : JObj) : String :=
  if getString obj "hardwareFingerprint" = "" then getString obj "hardwareId"
  else getString obj "hardwareFingerprint"

/-- The distinct exits of the client `main` (lines 370-479), one per
dialog/branch. -/
inductive ClientOutcome where
  | licenseMissing
  | openFailed
  | invalidJson
  | missingFields
  | fingerprintMismatch
  | publicKeyMissing
  | signatureInvalid
  | accepted
deriving Repr, DecidableEq

/-- The decision flow of the client `main` (lines 370-479), parameterized
over the facts it observes: whether `license.lic` exists, whether it could
be opened, the JSON parse result (`none` for a parse error or a non-object
document, matching line 415), whether `public_key.pem` exists, and the
verification oracle. Returns which exit is taken. -/
def clientMain (localFp : String) (licenseExists openOk : Bool)
    (parsed : Option JObj) (pubKeyExists : Bool) (env : VerifyEnv) :
    ClientOutcome :=
  if licenseExists = false then ClientOutcome.licenseMissing
  else if openOk = false then ClientOutcome.openFailed
  else
    match parsed with
    | none => ClientOutcome.invalidJson
    | some obj =>
        let licFp := effectiveFingerprint obj
        let sig := getString obj "signature"
        if licFp = "" ∨ sig = "" then ClientOutcome.missingFields
        else if localFp ≠ licFp then ClientOutcome.fingerprintMismatch
        else if pubKeyExists = false then ClientOutcome.publicKeyMissing
        else if verifyLicense env localFp sig = true then ClientOutcome.accepted
        else ClientOutcome.signatureInvalid

/-- Oracle for the external calls `LicenseGenerator::generateLicense`
makes: `privKeyLoaded` the result of `fopen` + `PEM_read_PrivateKey`
(lines 36-48), `signFinal` the signature bytes `EVP_SignFinal` produces
over the message bytes (`none` for a signing failure, lines 59-63), and
`writeOk` whether the `std::ofstream` actually persisted the license file
(lines 77-79; the code never reads this). -/
structure SignEnv where
  privKeyLoaded : Option Nat
  signFinal : Nat → List Nat → Option (List Nat)
  writeOk : Bool

/-- What `LicenseGenerator::generateLicense` produces: its boolean return,
the JSON license record streamed to the output file (when reached), and
whether the file was actually persisted. -/
structure GenResult where
  ok : Bool
  record : Option JObj
  persisted : Bool
deriving Repr, DecidableEq

/-- `LicenseGenerator::generateLicense` (licensegenerator.cpp lines
26-83): sign the bytes of `hardwareId` with the private key, hex-encode
the signature lowercase, and stream the JSON object with fields
`hardwareId` and `signature`; returns `true` as soon as signing succeeded,
without consulting the output stream's state. -/
def generateLicense (env : SignEnv) (hardwareId : String) : GenResult :=
  match env.privKeyLoaded with
  | none => ⟨false, none, false⟩
  | some k =>
      match env.signFinal k (stringBytes hardwareId) with
      | none => ⟨false, none, false⟩
      | some sig =>
          let record : JObj :=
            [("hardwareId", JVal.str hardwareId),
             ("signature", JVal.str (bytesToLowerHex sig))]
          ⟨true, some record, env.writeOk⟩

/-! ## Concrete oracle instances used by witnesses and counterexamples -/

/-- A signing oracle whose key loads and whose signatures are 128 zero
bytes (the size an RSA-1024 key would produce). -/
def toySign128 : SignEnv :=
  ⟨some 0, fun _ _ => some (List.replicate 128 0), true⟩

/-- A verification oracle matched to `toySign128`: it confirms exactly the
byte sequence that oracle signs with. -/
def toyVerify128 : VerifyEnv :=
  ⟨true, some 0, true, fun _ _ sig => if sig = List.replicate 128 0 then 1 else 0⟩

/-- A signing oracle whose key loads and whose signatures are 256 zero
bytes (the RSA-2048 signature size this system issues). -/
def toySign256 : SignEnv :=
  ⟨some 0, fun _ _ => some (List.replicate 256 0), true⟩

/-- A verification oracle matched to `toySign256`. -/
def toyVerify256 : VerifyEnv :=
  ⟨true, some 0, true, fun _ _ sig => if sig = List.replicate 256 0 then 1 else 0⟩

/-- A signing oracle that signs successfully but whose output stream
fails to persist the license file. -/
def toySignNoWrite : SignEnv :=
  ⟨some 0, fun _ _ => some [1], false⟩

/-! ## Lemmas about the hex codec -/

theorem hexVal_hexDigit : ∀ n, n < 16 → hexVal (hexDigit n) = n := by decide

theorem isHexChar_hexDigit : ∀ n, n < 16 → isHexChar (hexDigit n) = true := by decide

theorem isLowerHexDigit_hexDigit : ∀ n, n < 16 → isLowerHexDigit (hexDigit n) = true := by
  decide

theorem bytesToLowerHex_length (bs : List Nat) :
    (bytesToLowerHex bs).length = 2 * bs.length := by
  show ((bs.map byteToHex).flatten).length = 2 * bs.length
  induction bs with
  | nil => rfl
  | cons b t ih =>
      simp only [List.map_cons, List.flatten_cons, List.length_append, ih,
        List.length_cons, List.length_nil, byteToHex]
      omega

theorem bytesToLowerHex_lower (bs : List Nat) :
    (bytesToLowerHex bs).data.all isLowerHexDigit = true := by
  show ((bs.map byteToHex).flatten).all isLowerHexDigit = true
  induction bs with
  | nil => rfl
  | cons b t ih =>
      simp only [List.map_cons, List.flatten_cons, List.all_append, ih, Bool.and_true,
        byteToHex, List.all_cons, List.all_nil]
      rw [isLowerHexDigit_hexDigit _ (Nat.mod_lt _ (by norm_num)),
        isLowerHexDigit_hexDigit _ (Nat.mod_lt _ (by norm_num))]
      rfl

theorem sigIsHex_bytesToLowerHex (bs : List Nat) :
    sigIsHex (bytesToLowerHex bs) = true := by
  show ((bs.map byteToHex).flatten).all isHexChar = true
  induction bs with
  | nil => rfl
  | cons b t ih =>
      simp only [List.map_cons, List.flatten_cons, List.all_append, ih, Bool.and_true,
        byteToHex, List.all_cons, List.all_nil]
      rw [isHexChar_hexDigit _ (Nat.mod_lt _ (by norm_num)),
        isHexChar_hexDigit _ (Nat.mod_lt _ (by norm_num))]
      rfl

theorem hexPairsDecode_encode (bs : List Nat) (h : ∀ b ∈ bs, b < 256) :
    hexPairsDecode ((bs.map byteToHex).flatten) = bs := by
  induction bs with
  | nil => rfl
  | cons b t ih =>
      have hb : b < 256 := h b (List.mem_cons_self b t)
      have hdiv : b / 16 < 16 := Nat.div_lt_of_lt_mul (by omega)
      simp only [List.map_cons, List.flatten_cons, byteToHex, List.cons_append,
        List.nil_append]
      rw [hexPairsDecode]
      rw [hexVal_hexDigit _ (Nat.mod_lt _ (by norm_num)),
        hexVal_hexDigit _ (Nat.mod_lt _ (by norm_num))]
      rw [Nat.mod_eq_of_lt hdiv]
      rw [ih (fun x hx => h x (List.mem_cons_of_mem b hx))]
      rw [Nat.div_add_mod b 16]

theorem hexPairsDecode_length : ∀ cs : List Char,
    (hexPairsDecode cs).length = (cs.length + 1) / 2
  | [] => by simp [hexPairsDecode]
  | [_] => by simp [hexPairsDecode]
  | c1 :: c2 :: rest => by
      rw [hexPairsDecode]
      simp only [List.length_cons, hexPairsDecode_length rest]
      omega

theorem hexPairsDecode_getD : ∀ (cs : List Char) (i : Nat), 2 * i + 1 < cs.length →
    (hexPairsDecode cs).getD i 0
      = 16 * hexVal (cs.getD (2 * i) '0') + hexVal (cs.getD (2 * i + 1) '0')
  | [], _, h => by simp at h
  | [_], i, h => by simp at h
  | c1 :: c2 :: rest, 0, _ => by rw [hexPairsDecode]; rfl
  | c1 :: c2 :: rest, i + 1, h => by
      rw [hexPairsDecode]
      have hrec := hexPairsDecode_getD rest i (by simp at h; omega)
      have e1 : 2 * (i + 1) = 2 * i + 1 + 1 := by omega
      have e2 : 2 * (i + 1) + 1 = 2 * i + 1 + 1 + 1 := by omega
      simp only [e1, e2, List.getD_cons_succ, List.getD_cons_zero]
      exact hrec

/-! ## Lemmas about the Base64 model and the digest shape -/

theorem decodeQuads_eq_none_of_mem : ∀ (cs : List Char) (c : Char),
    c ∈ cs → b64Val c = none → decodeQuads cs = none
  | [], c, hmem, _ => absurd hmem (List.not_mem_nil c)
  | [_], _, _, _ => rfl
  | [_, _], _, _, _ => rfl
  | [_, _, _], _, _, _ => rfl
  | a :: b :: c' :: d :: rest, c, hmem, hnone => by
      simp only [List.mem_cons] at hmem
      rcases hmem with rfl | rfl | rfl | rfl | hr
      · simp [decodeQuads, hnone]
      · simp [decodeQuads, hnone]
      · simp [decodeQuads, hnone]
      · simp [decodeQuads, hnone]
      · have ih := decodeQuads_eq_none_of_mem rest c hr hnone
        simp [decodeQuads, ih]

theorem b64DecodeNoNL_eq_none (s : String)
    (h : '\n' ∈ trimTrail ((s.data.take (s.data.length / 4 * 4)).dropWhile isB64Ws)) :
    b64DecodeNoNL s = none := by
  have hq : evpDecodeBlock (s.data.take (s.data.length / 4 * 4)) = none :=
    decodeQuads_eq_none_of_mem _ '\n' h (by decide)
  simp only [b64DecodeNoNL, hq]

theorem sha256_length (bs : List Nat) : (sha256 bs).length = 32 := rfl

/-! ## Lemmas about the JSON view and the client flow -/

theorem getString_cons (k key : String) (v : JVal) (obj : JObj) :
    getString ((k, v) :: obj) key
      = if k = key then (match v with | JVal.str s => s | JVal.nonString => "")
        else getString obj key := by
  by_cases h : k = key
  · subst h
    simp only [getString, List.lookup, beq_self_eq_true, if_pos rfl]
    cases v <;> rfl
  · have hb : (key == k) = false := beq_eq_false_iff_ne.mpr (fun he => h he.symm)
    simp only [getString, List.lookup, hb, if_neg h]

/-- The client flow on a parsed license object, written as one decision
chain (definitional restatement of `clientMain`, convenient for case
splits). -/
theorem clientMain_some (localFp : String) (le oo pk : Bool) (obj : JObj)
    (env : VerifyEnv) :
    clientMain localFp le oo (some obj) pk env =
      if le = false then ClientOutcome.licenseMissing
      else if oo = false then ClientOutcome.openFailed
      else if effectiveFingerprint obj = "" ∨ getString obj "signature" = "" then
        ClientOutcome.missingFields
      else if localFp ≠ effectiveFingerprint obj then ClientOutcome.fingerprintMismatch
      else if pk = false then ClientOutcome.publicKeyMissing
      else if verifyLicense env localFp (getString obj "signature") = true then
        ClientOutcome.accepted
      else ClientOutcome.signatureInvalid := rfl

/-! ## Claim theorems -/

/-- C2: `HardwareLock::verifyLicense` returns `true` exactly when the
signature string decodes, the public key loads, the digest context is set
up, and `EVP_VerifyFinal` confirms the decoded bytes over the fingerprint
bytes; every failure mode (decode failure, missing or unparsable key,
context failure, signature mismatch) yields the return value `false` —
being a total `Bool`-valued function, it can return nothing else and never
throws. -/
theorem verify_decision_iff (env : VerifyEnv) (hash sig : String) :
    verifyLicense env hash sig = true ↔
      ∃ bytes k, verifyDecode env sig = some bytes
        ∧ env.pubKeyLoaded = some k ∧ env.ctxOk = true
        ∧ env.verifyFinal k (stringBytes hash) bytes = 1 := by
  unfold verifyLicense
  cases hd : verifyDecode env sig with
  | none => simp
  | some bytes =>
      cases hk : env.pubKeyLoaded with
      | none => simp
      | some k =>
          by_cases hc : env.ctxOk = true
          · by_cases hv : env.verifyFinal k (stringBytes hash) bytes = 1
            · simp [hc, hv]
            · simp [hc, hv]
          · simp [hc]

/-- C3: the decoder takes the hex path exactly when every character is in
`[0-9a-fA-F]` and the length is exactly 512; a 512-character all-hex
string decodes to exactly 256 bytes, each the value of its two-hex-digit
pair; every other string is decoded via the Base64 path. -/
theorem signature_format_detection (s : String) :
    ((sigIsHex s = true ∧ s.length = 512) →
        decodeSignature s = some (hexPairsDecode s.data)
        ∧ (hexPairsDecode s.data).length = 256
        ∧ ∀ i, i < 256 →
            (hexPairsDecode s.data).getD i 0
              = 16 * hexVal (s.data.getD (2 * i) '0')
                + hexVal (s.data.getD (2 * i + 1) '0'))
    ∧ (¬(sigIsHex s = true ∧ s.length = 512) →
        decodeSignature s = b64DecodeNoNL s) := by
  have hdata : s.length = s.data.length := rfl
  constructor
  · intro hcond
    refine ⟨?_, ?_, ?_⟩
    · unfold decodeSignature
      rw [if_pos hcond]
    · rw [hexPairsDecode_length, ← hdata, hcond.2]
    · intro i hi
      exact hexPairsDecode_getD s.data i (by rw [← hdata, hcond.2]; omega)
  · intro hcond
    unfold decodeSignature
    rw [if_neg hcond]

set_option maxRecDepth 8000 in
/-- C3 witness: the hex branch at the concrete 512-character all-hex
string of `'0'` characters, and the Base64 branch at `"zz"`. -/
theorem signature_format_detection_witness :
    decodeSignature ⟨List.replicate 512 '0'⟩
        = some (hexPairsDecode (List.replicate 512 '0'))
      ∧ (hexPairsDecode (List.replicate 512 '0')).length = 256
      ∧ decodeSignature "zz" = b64DecodeNoNL "zz" := by
  have h1 := (signature_format_detection ⟨List.replicate 512 '0'⟩).1
    (by constructor <;> decide)
  have h2 := (signature_format_detection "zz").2 (by decide)
  exact ⟨h1.1, h1.2.1, h2⟩

/-- C4: the fingerprint derivation is the pure total function hashing the
canonical concatenation `mac + "|" + disk + "|" + cpu` with SHA-256 and
rendering the digest lowercase; for all inputs, garbage or empty included,
the result is a 64-character string of lowercase hex digits (being a pure
Lean function, equal inputs trivially give equal outputs). -/
theorem fingerprint_pure_total (mac disk cpu : String) :
    getHardwareFingerprint mac disk cpu
        = bytesToLowerHex (sha256 (stringBytes (mac ++ "|" ++ disk ++ "|" ++ cpu)))
    ∧ (getHardwareFingerprint mac disk cpu).length = 64
    ∧ (getHardwareFingerprint mac disk cpu).data.all isLowerHexDigit = true := by
  refine ⟨rfl, ?_, ?_⟩
  · show (bytesToLowerHex (sha256 _)).length = 64
    rw [bytesToLowerHex_length, sha256_length]
  · exact bytesToLowerHex_lower _

/-- C5: in the client flow, a license whose (effective) fingerprint
differs from the locally derived one is rejected without signature
verification ever being consulted — the outcome is the same for every
verification oracle and is never `accepted` (nor the post-verification
`signatureInvalid`); conversely, the two outcomes downstream of
`HardwareLock::verifyLicense` can only arise when the two fingerprints
are equal. -/
theorem mismatch_rejected_before_verify (localFp : String) (le oo pk : Bool)
    (parsed : Option JObj) (obj : JObj) (env env' : VerifyEnv) :
    (localFp ≠ effectiveFingerprint obj →
       clientMain localFp le oo (some obj) pk env
           = clientMain localFp le oo (some obj) pk env'
       ∧ clientMain localFp le oo (some obj) pk env ≠ ClientOutcome.accepted
       ∧ clientMain localFp le oo (some obj) pk env ≠ ClientOutcome.signatureInvalid)
    ∧ ((clientMain localFp le oo parsed pk env = ClientOutcome.accepted
        ∨ clientMain localFp le oo parsed pk env = ClientOutcome.signatureInvalid) →
       ∃ o, parsed = some o ∧ localFp = effectiveFingerprint o) := by
  constructor
  · intro hne
    rw [clientMain_some, clientMain_some]
    refine ⟨?_, ?_, ?_⟩ <;> split_ifs with h1 h2 h3 <;> first | rfl | decide
  · intro h
    cases parsed with
    | none =>
        exfalso
        by_cases hle : le = false <;> by_cases hoo : oo = false <;>
          simp [clientMain, hle, hoo] at h
    | some o =>
        refine ⟨o, rfl, ?_⟩
        rw [clientMain_some] at h
        split_ifs at h with h1 h2 h3 h4 h5
        · rcases h with h | h <;> exact absurd h (by decide)
        · rcases h with h | h <;> exact absurd h (by decide)
        · rcases h with h | h <;> exact absurd h (by decide)
        · rcases h with h | h <;> exact absurd h (by decide)
        · rcases h with h | h <;> exact absurd h (by decide)
        · exact not_not.mp h4
        · exact not_not.mp h4

/-- C8: when the `hardwareFingerprint` field is absent or empty, the
fingerprint is read from the legacy `hardwareId` field, and the client
processes the object exactly as it would one whose `hardwareFingerprint`
holds that value (same outcome for every environment); when
`hardwareFingerprint` is present and non-empty, `hardwareId` is ignored. -/
theorem legacy_field_fallback (obj : JObj) (localFp : String) (le oo pk : Bool)
    (env : VerifyEnv) :
    (getString obj "hardwareFingerprint" = "" →
       effectiveFingerprint obj = getString obj "hardwareId"
       ∧ clientMain localFp le oo (some obj) pk env
           = clientMain localFp le oo
               (some (("hardwareFingerprint",
                       JVal.str (getString obj "hardwareId")) :: obj)) pk env)
    ∧ (getString obj "hardwareFingerprint" ≠ "" →
       effectiveFingerprint obj = getString obj "hardwareFingerprint") := by
  constructor
  · intro h
    have heff : effectiveFingerprint obj = getString obj "hardwareId" := by
      unfold effectiveFingerprint
      rw [if_pos h]
    refine ⟨heff, ?_⟩
    set v := getString obj "hardwareId" with hv
    have hfp2 : getString (("hardwareFingerprint", JVal.str v) :: obj)
        "hardwareFingerprint" = v := by
      rw [getString_cons, if_pos rfl]
    have hid2 : getString (("hardwareFingerprint", JVal.str v) :: obj)
        "hardwareId" = v := by
      rw [getString_cons, if_neg (by decide), ← hv]
    have hsig2 : getString (("hardwareFingerprint", JVal.str v) :: obj)
        "signature" = getString obj "signature" := by
      rw [getString_cons, if_neg (by decide)]
    have heff2 : effectiveFingerprint (("hardwareFingerprint", JVal.str v) :: obj)
        = effectiveFingerprint obj := by
      unfold effectiveFingerprint
      by_cases hv0 : v = ""
      · rw [hfp2, if_pos hv0, hid2, h, if_pos rfl, hv]
      · rw [hfp2, if_neg hv0, h, if_pos rfl, hv]
    rw [clientMain_some, clientMain_some, heff2, hsig2]
  · intro h
    unfold effectiveFingerprint
    rw [if_neg h]

/-- C8 witness: a record carrying only the legacy `hardwareId` field is
processed exactly like one with `hardwareFingerprint` set to its value. -/
theorem legacy_field_fallback_witness :
    effectiveFingerprint [("hardwareId", JVal.str "abc")] = "abc"
    ∧ clientMain "abc" true true (some [("hardwareId", JVal.str "abc")]) true
          toyVerify256
        = clientMain "abc" true true
            (some [("hardwareFingerprint", JVal.str "abc"),
                   ("hardwareId", JVal.str "abc")]) true toyVerify256 := by
  have h := (legacy_field_fallback [("hardwareId", JVal.str "abc")] "abc" true true
    true toyVerify256).1 (by decide)
  exact ⟨h.1, h.2⟩

/-- C9: a license file that is not valid JSON or not a JSON object, and a
license object whose effective fingerprint or signature field is empty,
are rejected (`invalidJson` / `missingFields`) with an outcome that does
not depend on the cryptographic oracle at all — no signature decoding or
verification is consulted; the concrete record carrying only
`{"signature": "deadbeef"}` is rejected this way. -/
theorem malformed_license_fail_closed (localFp : String) (pk : Bool)
    (env env' : VerifyEnv) (obj : JObj) :
    clientMain localFp true true none pk env = ClientOutcome.invalidJson
    ∧ ((effectiveFingerprint obj = "" ∨ getString obj "signature" = "") →
        clientMain localFp true true (some obj) pk env = ClientOutcome.missingFields
        ∧ clientMain localFp true true (some obj) pk env
            = clientMain localFp true true (some obj) pk env')
    ∧ clientMain localFp true true
          (some [("signature", JVal.str "deadbeef")]) pk env
        = ClientOutcome.missingFields := by
  have key : ∀ (o : JObj),
      (effectiveFingerprint o = "" ∨ getString o "signature" = "") →
      clientMain localFp true true (some o) pk env = ClientOutcome.missingFields := by
    intro o ho
    rw [clientMain_some]
    simp only [if_pos ho]
    rfl
  refine ⟨rfl, ?_, ?_⟩
  · intro h
    refine ⟨key obj h, ?_⟩
    rw [key obj h, clientMain_some]
    simp only [if_pos h]
    rfl
  · exact key [("signature", JVal.str "deadbeef")] (Or.inl (by decide))

/-- C9 witness: the concrete malformed inputs, at a concrete oracle. -/
theorem malformed_license_fail_closed_witness :
    clientMain "abc" true true none true toyVerify256 = ClientOutcome.invalidJson
    ∧ clientMain "abc" true true (some [("signature", JVal.str "deadbeef")]) true
          toyVerify256 = ClientOutcome.missingFields
    ∧ clientMain "abc" true true (some [("signature", JVal.str "deadbeef")]) true
          toyVerify256
        = clientMain "abc" true true (some [("signature", JVal.str "deadbeef")]) true
            toyVerify128 := by
  have h := malformed_license_fail_closed "abc" true toyVerify256 toyVerify128
    [("signature", JVal.str "deadbeef")]
  have h2 := h.2.1 (Or.inl (by decide))
  exact ⟨h.1, h2.1, h2.2⟩

/-- C10: `LicenseGenerator::generateLicense` returns `true` whenever the
private key loads and signing succeeds, for either value of the output
stream's success flag — the flag is never consulted, so a `true` return
does not guarantee the license file was persisted. -/
theorem generate_ok_ignores_write (env : SignEnv) (hid : String) (ks : Nat)
    (sig : List Nat)
    (hks : env.privKeyLoaded = some ks)
    (hsig : env.signFinal ks (stringBytes hid) = some sig) :
    (generateLicense env hid).ok = true
    ∧ (generateLicense env hid).persisted = env.writeOk := by
  simp [generateLicense, hks, hsig]

/-- C10 witness: a concrete oracle whose stream fails to persist still
gets a `true` return. -/
theorem generate_ok_ignores_write_witness :
    (generateLicense toySignNoWrite "fp").ok = true
    ∧ (generateLicense toySignNoWrite "fp").persisted = false := by
  have h := generate_ok_ignores_write toySignNoWrite "fp" 0 [1] rfl rfl
  exact ⟨h.1, h.2⟩

/-- C6 counterexample: at a concrete successful issuance the produced JSON
record has no `hardwareFingerprint` key at all — looking that field up
yields the empty string, not the input fingerprint `"abc"`; the
fingerprint travels under the legacy `hardwareId` key instead. -/
theorem issuer_record_key_cex :
    (generateLicense toySign256 "abc").ok = true
    ∧ (generateLicense toySign256 "abc").record
        = some [("hardwareId", JVal.str "abc"),
                ("signature", JVal.str (bytesToLowerHex (List.replicate 256 0)))]
    ∧ getString [("hardwareId", JVal.str "abc"),
                 ("signature", JVal.str (bytesToLowerHex (List.replicate 256 0)))]
        "hardwareFingerprint" = ""
    ∧ ("" : String) ≠ "abc" := by
  exact ⟨rfl, rfl, rfl, by decide⟩

/-- C6 (amended): a successful issuance produces a record carrying the
input fingerprint verbatim under the legacy `hardwareId` key (the
`hardwareFingerprint` key itself is absent, so reading it gives `""`),
which the client's synonym rule resolves to the fingerprint; the
`signature` field is the raw signature bytes rendered as lowercase
hexadecimal, two hex digits per byte, no separators. -/
theorem issuer_record_fields (env : SignEnv) (fp : String) (ks : Nat)
    (sig : List Nat)
    (hks : env.privKeyLoaded = some ks)
    (hsig : env.signFinal ks (stringBytes fp) = some sig) :
    ∃ r, (generateLicense env fp).record = some r
      ∧ getString r "hardwareFingerprint" = ""
      ∧ getString r "hardwareId" = fp
      ∧ effectiveFingerprint r = fp
      ∧ getString r "signature" = bytesToLowerHex sig
      ∧ (getString r "signature").length = 2 * sig.length
      ∧ (getString r "signature").data.all isLowerHexDigit = true := by
  refine ⟨[("hardwareId", JVal.str fp),
           ("signature", JVal.str (bytesToLowerHex sig))], ?_, rfl, rfl, rfl, rfl,
          ?_, ?_⟩
  · simp [generateLicense, hks, hsig]
  · exact bytesToLowerHex_length sig
  · exact bytesToLowerHex_lower sig

/-- C6 witness: the amended record shape at a concrete issuance. -/
theorem issuer_record_fields_witness :
    ∃ r, (generateLicense toySign256 "fp1").record = some r
      ∧ getString r "hardwareFingerprint" = ""
      ∧ getString r "hardwareId" = "fp1"
      ∧ effectiveFingerprint r = "fp1"
      ∧ getString r "signature" = bytesToLowerHex (List.replicate 256 0)
      ∧ (getString r "signature").length = 2 * (List.replicate 256 (0 : Nat)).length
      ∧ (getString r "signature").data.all isLowerHexDigit = true := by
  exact issuer_record_fields toySign256 "fp1" 0 (List.replicate 256 0) rfl rfl

/-! ## Helper lemmas for the verification path -/

theorem verifyLicense_eq_true_of (env : VerifyEnv) (hash sig : String)
    (bytes : List Nat) (k : Nat)
    (hd : verifyDecode env sig = some bytes) (hk : env.pubKeyLoaded = some k)
    (hc : env.ctxOk = true) (hv : env.verifyFinal k (stringBytes hash) bytes = 1) :
    verifyLicense env hash sig = true := by
  simp [verifyLicense, hd, hk, hc, hv]

theorem verifyLicense_eq_false_of_decode (env : VerifyEnv) (hash sig : String)
    (hd : verifyDecode env sig = none) : verifyLicense env hash sig = false := by
  simp [verifyLicense, hd]

theorem verifyDecode_hex (env : VerifyEnv) (bs : List Nat)
    (hlen : bs.length = 256) (hbyte : ∀ b ∈ bs, b < 256) :
    verifyDecode env (bytesToLowerHex bs) = some bs := by
  unfold verifyDecode
  rw [if_pos ⟨sigIsHex_bytesToLowerHex bs, by rw [bytesToLowerHex_length, hlen]⟩]
  exact congrArg some (hexPairsDecode_encode bs hbyte)

/-- The shape of a compatible freshly generated key pair, as claim C1
quantifies over it: the private key loads on the issuing side, the public
key loads and the context sets up on the verifying side, and any byte
sequence the signing primitive produces over a message is a byte string
(entries below 256) that the verifying primitive confirms over that same
message. -/
def RSACompatible (senv : SignEnv) (venv : VerifyEnv) (ks kv : Nat) : Prop :=
  senv.privKeyLoaded = some ks ∧ venv.pubKeyLoaded = some kv
  ∧ venv.ctxOk = true ∧ venv.bioOk = true
  ∧ ∀ msg sig, senv.signFinal ks msg = some sig →
      (∀ b ∈ sig, b < 256) ∧ venv.verifyFinal kv msg sig = 1

set_option maxRecDepth 8000 in
/-- C1 counterexample: the round trip fails for a compatible key pair
whose signatures are 128 bytes (an RSA-1024 pair): issuing succeeds, but
the 256-character hex encoding misses the 512-character gate, is decoded
as Base64 into different bytes, and verification returns `false`. -/
theorem issue_verify_roundtrip_cex :
    ¬ (∀ (senv : SignEnv) (venv : VerifyEnv) (ks kv : Nat) (fp : String) (r : JObj),
        RSACompatible senv venv ks kv →
        (generateLicense senv fp).record = some r →
        verifyLicense venv fp (getString r "signature") = true) := by
  intro h
  have hcomp : RSACompatible toySign128 toyVerify128 0 0 := by
    refine ⟨rfl, rfl, rfl, rfl, ?_⟩
    intro msg sig hs
    have hsig : List.replicate 128 0 = sig := Option.some.inj hs
    constructor
    · intro b hb
      rw [← hsig] at hb
      have := List.eq_of_mem_replicate hb
      omega
    · rw [← hsig]
      simp [toyVerify128]
  have htrue := h toySign128 toyVerify128 0 0 "fp"
    [("hardwareId", JVal.str "fp"),
     ("signature", JVal.str (bytesToLowerHex (List.replicate 128 0)))]
    hcomp rfl
  have hfalse : verifyLicense toyVerify128 "fp"
      (getString [("hardwareId", JVal.str "fp"),
                  ("signature", JVal.str (bytesToLowerHex (List.replicate 128 0)))]
        "signature") = false := by decide
  rw [htrue] at hfalse
  exact Bool.noConfusion hfalse

/-- C1 (amended): for a key pair whose signatures are exactly 256 bytes
(RSA-2048, the size this system issues), the round trip holds: when the
private key loads, signing produces 256 bytes that the verifier's
primitive confirms over the same fingerprint bytes, the issued record's
hex-encoded signature is 512 all-hex characters, the hex decoder inverts
the issuer's encoding, and `verifyLicense` returns `true` on the
fingerprint exactly as supplied. -/
theorem issue_verify_roundtrip_rsa2048 (senv : SignEnv) (venv : VerifyEnv)
    (ks kv : Nat) (fp : String) (sig : List Nat)
    (hks : senv.privKeyLoaded = some ks)
    (hkv : venv.pubKeyLoaded = some kv)
    (hctx : venv.ctxOk = true)
    (hsig : senv.signFinal ks (stringBytes fp) = some sig)
    (hlen : sig.length = 256)
    (hbyte : ∀ b ∈ sig, b < 256)
    (hv : venv.verifyFinal kv (stringBytes fp) sig = 1) :
    (generateLicense senv fp).ok = true
    ∧ ∃ r, (generateLicense senv fp).record = some r
        ∧ verifyLicense venv fp (getString r "signature") = true := by
  refine ⟨by simp [generateLicense, hks, hsig],
          [("hardwareId", JVal.str fp),
           ("signature", JVal.str (bytesToLowerHex sig))],
          by simp [generateLicense, hks, hsig], ?_⟩
  show verifyLicense venv fp (bytesToLowerHex sig) = true
  exact verifyLicense_eq_true_of venv fp (bytesToLowerHex sig) sig kv
    (verifyDecode_hex venv sig hlen hbyte) hkv hctx hv

/-- C1 witness: the round trip at a concrete 256-byte signing oracle. -/
theorem issue_verify_roundtrip_rsa2048_witness :
    (generateLicense toySign256 "fp").ok = true
    ∧ ∃ r, (generateLicense toySign256 "fp").record = some r
        ∧ verifyLicense toyVerify256 "fp" (getString r "signature") = true := by
  refine issue_verify_roundtrip_rsa2048 toySign256 toyVerify256 0 0 "fp"
    (List.replicate 256 0) rfl rfl rfl rfl (by simp) ?_ (by simp [toyVerify256])
  intro b hb
  have := List.eq_of_mem_replicate hb
  omega

/-- C7 counterexample: the Base64 decoder of the client does not ignore
embedded line breaks; with `BIO_FLAGS_BASE64_NO_NL` set, the input
`"QUJD\nREVG"` fails to decode although the same input with the line
break removed decodes fine. -/
theorem base64_ignores_newlines_cex :
    ¬ (∀ s : String, ¬(sigIsHex s = true ∧ s.length = 512) →
        b64DecodeNoNL s
          = b64DecodeNoNL (String.mk (s.data.filter (fun c => c != '\n')))) := by
  intro h
  have h0 := h "QUJD\nREVG" (by decide)
  have h1 : b64DecodeNoNL "QUJD\nREVG" = none := by decide
  have h2 : b64DecodeNoNL
      (String.mk ("QUJD\nREVG".data.filter (fun c => c != '\n')))
      = some [65, 66, 67, 68, 69, 70] := by decide
  rw [h1, h2] at h0
  exact Option.noConfusion h0

/-- C7 (amended): a string routed to the Base64 branch is decoded in
single-line mode (`BIO_FLAGS_BASE64_NO_NL`): a line break surviving into
the decoded block makes decoding fail rather than being ignored, and any
decoding failure makes the whole verification return `false` — there is
no fallback to another decoding format. -/
theorem base64_single_line_mode (env : VerifyEnv) (hash s : String)
    (hroute : ¬(sigIsHex s = true ∧ s.length = 512)) :
    ('\n' ∈ trimTrail ((s.data.take (s.data.length / 4 * 4)).dropWhile isB64Ws) →
       b64DecodeNoNL s = none)
    ∧ (b64DecodeNoNL s = none → verifyLicense env hash s = false) := by
  constructor
  · exact b64DecodeNoNL_eq_none s
  · intro hnone
    have hd : verifyDecode env s = none := by
      unfold verifyDecode
      rw [if_neg hroute]
      by_cases hb : env.bioOk <;> simp [hb, hnone]
    exact verifyLicense_eq_false_of_decode env hash s hd

/-- C7 witness: the single-line behavior at the concrete input
`"QUJD\nREVG"`. -/
theorem base64_single_line_mode_witness :
    b64DecodeNoNL "QUJD\nREVG" = none
    ∧ verifyLicense toyVerify128 "fp" "QUJD\nREVG" = false := by
  have h := base64_single_line_mode toyVerify128 "fp" "QUJD\nREVG" (by decide)
  have h1 := h.1 (by decide)
  exact ⟨h1, h.2 h1⟩
